import Mathlib

/-!
Verification of the local reactive state containers of the Vite-Projects
repository: the Context-based todo store (DETAILED_TODO_CONTEXT.md, App.jsx
example, and src/Contexts/TodoContext.js), the Redux-style todo reducer
(reduxtoolkittodo), the theme store (themSwitcher), the user context
(miniContext), and the currency-rate hook (useCurrencyInfo.js).

JavaScript arrays of todo records are modelled as `List Todo`; `Date.now()`
and other id generators are passed in as explicit `Nat` parameters; code that
can throw at run time (evaluation of an out-of-scope identifier, a rejected
fetch/JSON promise) is modelled in `Except JsError`.
-/

set_option autoImplicit false

/-- A todo record as created by the stores:
`{ id: Date.now(), todo: <text>, completed: <bool> }`. -/
structure Todo where
  id : Nat
  todo : String
  completed : Bool
deriving Repr, DecidableEq

/-- The payload handed to `addTodo` by `TodoForm`: `{todo, completed}`,
carrying no id of its own. -/
structure Payload where
  todo : String
  completed : Bool
deriving Repr, DecidableEq

/-- Run-time JavaScript errors relevant to this code: referencing an
identifier that is not in scope, a network failure rejecting the fetch
promise, and a JSON body that fails to parse. -/
inductive JsError where
  | referenceError (name : String)
  | networkError
  | parseError
deriving Repr, DecidableEq

/-- `Array.prototype.map` with a callback that may throw: the callback is
evaluated left to right and the first throw aborts the whole call. -/
def mapJs {α β : Type} (f : α → Except JsError β) : List α → Except JsError (List β)
  | [] => .ok []
  | a :: as => do
    let b ← f a
    let bs ← mapJs f as
    pure (b :: bs)

/-- The record built by `addTodo`: `{ id: now, ...todo }`. -/
def mkTodo (now : Nat) (p : Payload) : Todo :=
  { id := now, todo := p.todo, completed := p.completed }

/-- `addTodo` from the App.jsx example:
`setTodos((prev) => [{ id: Date.now(), ...todo }, ...prev])`.
`Date.now()` is the explicit parameter `now`. -/
def addTodo (now : Nat) (p : Payload) (prev : List Todo) : List Todo :=
  mkTodo now p :: prev

/-- `updatedTodo` from the App.jsx example:
`prev.map((prevTodo) => (prevTodo.id === id ? todo : prevTodo))`. -/
def updatedTodo (id : Nat) (todo : Todo) (prev : List Todo) : List Todo :=
  prev.map fun prevTodo => if prevTodo.id == id then todo else prevTodo

/-- `deleteTodo` from the App.jsx example, exactly as written there:
`prev.map((prevTodo) => (prevTodo.id === id ? todo : prevTodo))`.
The identifier `todo` is not in scope inside `deleteTodo`, so the arm taken
on a matching record throws a `ReferenceError` at evaluation time; on a
record with a non-matching id the callback returns the record itself. -/
def deleteTodo (id : Nat) (prev : List Todo) : Except JsError (List Todo) :=
  mapJs
    (fun prevTodo =>
      if prevTodo.id == id then .error (.referenceError "todo") else .ok prevTodo)
    prev

/-- `toggleComplete` from the App.jsx example:
`prev.map((prevTodo) => prevTodo.id === id ?
  { ...prevTodo, completed: !prevTodo.completed } : prevTodo)`. -/
def toggleComplete (id : Nat) (prev : List Todo) : List Todo :=
  prev.map fun prevTodo =>
    if prevTodo.id == id then { prevTodo with completed := !prevTodo.completed }
    else prevTodo

/-- Closed form of `deleteTodo`: it throws as soon as some record matches,
and otherwise rebuilds the collection unchanged. -/
theorem deleteTodo_eq (id : Nat) (prev : List Todo) :
    deleteTodo id prev =
      if prev.any (fun t => t.id == id) then .error (.referenceError "todo")
      else .ok prev := by
  induction prev with
  | nil => rfl
  | cons t ts ih =>
    by_cases h : t.id == id
    · simp [deleteTodo, mapJs, h, List.any_cons, Bind.bind, Except.bind]
    · simp only [deleteTodo, mapJs, h, if_neg, List.any_cons, Bool.false_or]
      simp only [deleteTodo] at ih
      rw [ih]
      by_cases h2 : ts.any (fun t => t.id == id) <;>
        simp [h2, h, Bind.bind, Except.bind, pure, Except.pure]

/-- C1: evaluating the code at the failing input. `deleteTodo(1)` on the
one-record collection `[{id: 1, todo: "buy milk", completed: false}]` does
not filter the record out: it throws `ReferenceError: todo is not defined`,
because the delete mutator duplicates the `updatedTodo` map and references
the out-of-scope identifier `todo`. On an absent id (`deleteTodo(2)`) the
map never takes the throwing arm, so that half of the claim (unmatched id is
a no-op) does hold. -/
theorem deleteTodo_failing_input :
    deleteTodo 1 [⟨1, "buy milk", false⟩] = .error (.referenceError "todo") ∧
    deleteTodo 2 [⟨1, "buy milk", false⟩] = .ok [⟨1, "buy milk", false⟩] := by
  constructor <;> rfl

/-- C7: `updatedTodo id patch` keeps the length of the collection, replaces
exactly the records whose id matches by the patch while returning every
record with a non-matching id identically, and is a no-op (the collection is
returned unchanged) when no record carries the id. -/
theorem updatedTodo_replaces_only_match :
    (∀ id patch prev, (updatedTodo id patch prev).length = prev.length) ∧
    (∀ id patch prev i, ∀ hi : i < prev.length,
      ∀ hm : i < (updatedTodo id patch prev).length,
      (updatedTodo id patch prev)[i] =
        if prev[i].id = id then patch else prev[i]) ∧
    (∀ id patch prev, (∀ t ∈ prev, t.id ≠ id) → updatedTodo id patch prev = prev) := by
  refine ⟨fun id patch prev => List.length_map prev _,
    fun id patch prev i hi hm => ?_, fun id patch prev h => ?_⟩
  · simp only [updatedTodo, List.getElem_map]
    by_cases hc : prev[i].id = id <;> simp [hc]
  · induction prev with
    | nil => rfl
    | cons t ts ih =>
      have ht : t.id ≠ id := h t (List.mem_cons_self t ts)
      have hts := ih fun u hu => h u (List.mem_cons_of_mem t hu)
      simp only [updatedTodo, List.map_cons] at hts ⊢
      simp only [beq_iff_eq] at hts ⊢
      simp [ht, hts]

/-- C7 witness: on `[{id:1,"a"},{id:2,"b"}]`, updating id 1 with a patch
leaves the record at index 1 untouched and replaces the record at index 0,
and updating the absent id 5 returns the collection unchanged. -/
theorem updatedTodo_replaces_only_match_witness :
    (updatedTodo 1 ⟨1, "c", true⟩ [⟨1, "a", false⟩, ⟨2, "b", false⟩]).length = 2 ∧
    (updatedTodo 1 ⟨1, "c", true⟩ [⟨1, "a", false⟩, ⟨2, "b", false⟩])[0]? =
      some ⟨1, "c", true⟩ ∧
    (updatedTodo 1 ⟨1, "c", true⟩ [⟨1, "a", false⟩, ⟨2, "b", false⟩])[1]? =
      some ⟨2, "b", false⟩ ∧
    updatedTodo 5 ⟨5, "c", true⟩ [⟨1, "a", false⟩, ⟨2, "b", false⟩] =
      [⟨1, "a", false⟩, ⟨2, "b", false⟩] := by
  have h0 := updatedTodo_replaces_only_match.2.1 1 ⟨1, "c", true⟩
    [⟨1, "a", false⟩, ⟨2, "b", false⟩] 0 (by decide) (by decide)
  have h1 := updatedTodo_replaces_only_match.2.1 1 ⟨1, "c", true⟩
    [⟨1, "a", false⟩, ⟨2, "b", false⟩] 1 (by decide) (by decide)
  have h2 := updatedTodo_replaces_only_match.2.2 5 ⟨5, "c", true⟩
    [⟨1, "a", false⟩, ⟨2, "b", false⟩] (by decide)
  refine ⟨updatedTodo_replaces_only_match.1 1 ⟨1, "c", true⟩ _, ?_, ?_, h2⟩
  · rw [List.getElem?_eq_getElem (by decide), h0]; rfl
  · rw [List.getElem?_eq_getElem (by decide), h1]; rfl

/-- C8: `toggleComplete id` applied twice is the identity on the collection
(involution), and a single application flips the `completed` boolean on
exactly the records whose id matches, returning all other records
identically. -/
theorem toggleComplete_involution :
    (∀ id prev, toggleComplete id (toggleComplete id prev) = prev) ∧
    (∀ id prev i, ∀ hi : i < prev.length,
      ∀ hm : i < (toggleComplete id prev).length,
      (toggleComplete id prev)[i] =
        if prev[i].id = id then { prev[i] with completed := !(prev[i].completed) }
        else prev[i]) := by
  constructor
  · intro id prev
    induction prev with
    | nil => rfl
    | cons t ts ih =>
      simp only [toggleComplete, List.map_cons] at ih ⊢
      rw [ih]
      by_cases hc : t.id == id
      · simp [hc]
      · simp [hc]
  · intro id prev i hi hm
    simp only [toggleComplete, List.getElem_map]
    by_cases hc : prev[i].id = id <;> simp [hc]

/-- C8 witness: toggling id 1 twice on `[{id:1, completed:false}]` restores
the collection, and one application flips the matching record's flag while
leaving the non-matching record at index 1 untouched. -/
theorem toggleComplete_involution_witness :
    toggleComplete 1 (toggleComplete 1 [⟨1, "a", false⟩, ⟨2, "b", true⟩]) =
      [⟨1, "a", false⟩, ⟨2, "b", true⟩] ∧
    (toggleComplete 1 [⟨1, "a", false⟩, ⟨2, "b", true⟩])[0]? =
      some ⟨1, "a", true⟩ ∧
    (toggleComplete 1 [⟨1, "a", false⟩, ⟨2, "b", true⟩])[1]? =
      some ⟨2, "b", true⟩ := by
  have h0 := toggleComplete_involution.2 1 [⟨1, "a", false⟩, ⟨2, "b", true⟩] 0
    (by decide) (by decide)
  have h1 := toggleComplete_involution.2 1 [⟨1, "a", false⟩, ⟨2, "b", true⟩] 1
    (by decide) (by decide)
  refine ⟨toggleComplete_involution.1 1 _, ?_, ?_⟩
  · rw [List.getElem?_eq_getElem (by decide), h0]; rfl
  · rw [List.getElem?_eq_getElem (by decide), h1]; rfl

/-- C5: `addTodo` prepends `{id: Date.now(), ...payload}` and returns
`[newRecord, ...state]` for every state and payload; the two-add scenario on
the empty collection yields `["walk dog", "buy milk"]` in most-recent-first
order, of length 2, with distinct ids (whenever the two generated timestamps
differ) and both `completed` flags false. -/
theorem addTodo_prepends :
    (∀ now p prev, addTodo now p prev = mkTodo now p :: prev) ∧
    (∀ t1 t2 : Nat, t1 ≠ t2 →
      addTodo t2 ⟨"walk dog", false⟩ (addTodo t1 ⟨"buy milk", false⟩ []) =
        [⟨t2, "walk dog", false⟩, ⟨t1, "buy milk", false⟩] ∧
      (addTodo t2 ⟨"walk dog", false⟩ (addTodo t1 ⟨"buy milk", false⟩ [])).length = 2 ∧
      ((addTodo t2 ⟨"walk dog", false⟩
          (addTodo t1 ⟨"buy milk", false⟩ [])).map Todo.id).Nodup ∧
      ((addTodo t2 ⟨"walk dog", false⟩
          (addTodo t1 ⟨"buy milk", false⟩ [])).all fun t => !t.completed) = true) := by
  refine ⟨fun now p prev => rfl, fun t1 t2 h => ⟨rfl, rfl, ?_, rfl⟩⟩
  simp [addTodo, mkTodo, List.nodup_cons, Ne.symm h]

/-- C5 witness: the scenario at the concrete timestamps 1 and 2. -/
theorem addTodo_prepends_witness :
    addTodo 2 ⟨"walk dog", false⟩ (addTodo 1 ⟨"buy milk", false⟩ []) =
      [⟨2, "walk dog", false⟩, ⟨1, "buy milk", false⟩] ∧
    (addTodo 2 ⟨"walk dog", false⟩ (addTodo 1 ⟨"buy milk", false⟩ [])).length = 2 ∧
    ((addTodo 2 ⟨"walk dog", false⟩
        (addTodo 1 ⟨"buy milk", false⟩ [])).map Todo.id).Nodup ∧
    ((addTodo 2 ⟨"walk dog", false⟩
        (addTodo 1 ⟨"buy milk", false⟩ [])).all fun t => !t.completed) = true :=
  addTodo_prepends.2 1 2 (by decide)

/-- A fragment of the JavaScript heap holding the todo arrays that have been
allocated so far; an array reference is an index into the allocation list.
`Array.prototype.map`, `Array.prototype.filter` and `[x, ...spread]` all
allocate a fresh array, so each mutator ends in `alloc`. -/
structure Heap where
  arrays : List (List Todo)
deriving Repr, DecidableEq

/-- Allocate a fresh array on the heap and return its reference. -/
def Heap.alloc (h : Heap) (a : List Todo) : Heap × Nat :=
  (⟨h.arrays ++ [a]⟩, h.arrays.length)

/-- Read the array behind a reference. -/
def Heap.deref (h : Heap) (r : Nat) : List Todo :=
  h.arrays.getD r []

/-- `addTodo` acting on the heap: spreads the previous array into a freshly
allocated one with the new record in front. -/
def addTodoHeap (now : Nat) (p : Payload) (h : Heap) (r : Nat) : Heap × Nat :=
  h.alloc (addTodo now p (h.deref r))

/-- `updatedTodo` acting on the heap: `map` allocates a fresh array. -/
def updatedTodoHeap (id : Nat) (patch : Todo) (h : Heap) (r : Nat) : Heap × Nat :=
  h.alloc (updatedTodo id patch (h.deref r))

/-- `toggleComplete` acting on the heap: `map` allocates a fresh array. -/
def toggleCompleteHeap (id : Nat) (h : Heap) (r : Nat) : Heap × Nat :=
  h.alloc (toggleComplete id (h.deref r))

/-- `deleteTodo` acting on the heap: the `map` callback may throw, in which
case no array is returned and the heap is left as it was. -/
def deleteTodoHeap (id : Nat) (h : Heap) (r : Nat) : Except JsError (Heap × Nat) :=
  match deleteTodo id (h.deref r) with
  | .error e => .error e
  | .ok a => .ok (h.alloc a)

/-- Allocation does not disturb existing references. -/
theorem deref_alloc (h : Heap) (a : List Todo) (r : Nat) (hr : r < h.arrays.length) :
    (h.alloc a).1.deref r = h.deref r := by
  simp only [Heap.alloc, Heap.deref, List.getD]
  rw [List.get?_append hr]

/-- C6 amended: none of the four mutators ever mutates the collection
behind the input reference; `addTodo`, `updatedTodo` and `toggleComplete`
always allocate and return a fresh collection value (a reference distinct
from the input), while `deleteTodo` does so exactly when no record matches
the id — when one does, it throws a `ReferenceError` instead of producing a
collection, still leaving the input untouched. -/
theorem mutators_fresh_value (now : Nat) (p : Payload) (id : Nat) (patch : Todo)
    (h : Heap) (r : Nat) (hr : r < h.arrays.length) :
    ((addTodoHeap now p h r).1.deref r = h.deref r ∧ (addTodoHeap now p h r).2 ≠ r) ∧
    ((updatedTodoHeap id patch h r).1.deref r = h.deref r ∧
      (updatedTodoHeap id patch h r).2 ≠ r) ∧
    ((toggleCompleteHeap id h r).1.deref r = h.deref r ∧
      (toggleCompleteHeap id h r).2 ≠ r) ∧
    (deleteTodoHeap id h r =
      if (h.deref r).any (fun t => t.id == id) then
        Except.error (JsError.referenceError "todo")
      else Except.ok (h.alloc (h.deref r))) ∧
    ((h.alloc (h.deref r)).1.deref r = h.deref r ∧ (h.alloc (h.deref r)).2 ≠ r) := by
  have hfresh : h.arrays.length ≠ r := by omega
  refine ⟨⟨deref_alloc h _ r hr, hfresh⟩, ⟨deref_alloc h _ r hr, hfresh⟩,
    ⟨deref_alloc h _ r hr, hfresh⟩, ?_, deref_alloc h _ r hr, hfresh⟩
  simp only [deleteTodoHeap, deleteTodo_eq]
  by_cases hc : (h.deref r).any fun t => t.id == id <;> simp [hc]

/-- C6 witness: the frame and freshness facts at the one-array heap
`[[{id:1,"a"}]]`, reference 0, including that `deleteTodo(1)` throws there
while `deleteTodo`'s would-have-been allocation is fresh. -/
theorem mutators_fresh_value_witness :
    ((addTodoHeap 5 ⟨"x", false⟩ ⟨[[⟨1, "a", false⟩]]⟩ 0).1.deref 0 =
        Heap.deref ⟨[[⟨1, "a", false⟩]]⟩ 0 ∧
      (addTodoHeap 5 ⟨"x", false⟩ ⟨[[⟨1, "a", false⟩]]⟩ 0).2 ≠ 0) ∧
    ((updatedTodoHeap 1 ⟨1, "y", true⟩ ⟨[[⟨1, "a", false⟩]]⟩ 0).1.deref 0 =
        Heap.deref ⟨[[⟨1, "a", false⟩]]⟩ 0 ∧
      (updatedTodoHeap 1 ⟨1, "y", true⟩ ⟨[[⟨1, "a", false⟩]]⟩ 0).2 ≠ 0) ∧
    ((toggleCompleteHeap 1 ⟨[[⟨1, "a", false⟩]]⟩ 0).1.deref 0 =
        Heap.deref ⟨[[⟨1, "a", false⟩]]⟩ 0 ∧
      (toggleCompleteHeap 1 ⟨[[⟨1, "a", false⟩]]⟩ 0).2 ≠ 0) ∧
    (deleteTodoHeap 1 ⟨[[⟨1, "a", false⟩]]⟩ 0 =
      if (Heap.deref ⟨[[⟨1, "a", false⟩]]⟩ 0).any (fun t => t.id == 1) then
        Except.error (JsError.referenceError "todo")
      else Except.ok (Heap.alloc ⟨[[⟨1, "a", false⟩]]⟩
        (Heap.deref ⟨[[⟨1, "a", false⟩]]⟩ 0))) ∧
    ((Heap.alloc ⟨[[⟨1, "a", false⟩]]⟩
        (Heap.deref ⟨[[⟨1, "a", false⟩]]⟩ 0)).1.deref 0 =
        Heap.deref ⟨[[⟨1, "a", false⟩]]⟩ 0 ∧
      (Heap.alloc ⟨[[⟨1, "a", false⟩]]⟩
        (Heap.deref ⟨[[⟨1, "a", false⟩]]⟩ 0)).2 ≠ 0) :=
  mutators_fresh_value 5 ⟨"x", false⟩ 1 ⟨1, "y", true⟩ ⟨[[⟨1, "a", false⟩]]⟩ 0
    (by decide)

/-- C6 counterexample to the claim as stated: on the heap holding the single
collection `[{id:1,"a"}]`, `deleteTodo(1)` does not produce any new
collection value — it throws a `ReferenceError` — so it is not true that
every one of the four mutators returns a new collection for every input. -/
theorem deleteTodoHeap_counterexample :
    deleteTodoHeap 1 ⟨[[⟨1, "a", false⟩]]⟩ 0 =
      Except.error (JsError.referenceError "todo") := by
  rfl

/-- Modelled from the spec: the Redux Toolkit slice
(`reduxtoolkittodo/src/feature/todo/todoSlice.js`) is not part of the source
tree — only its README describes it. Per the spec, the reducer understands
two actions: `ADD(payload)` and `REMOVE(id)`. -/
inductive TodoAction where
  | add (text : String) (completed : Bool)
  | remove (id : Nat)
deriving Repr, DecidableEq

/-- Modelled from the spec: `ADD` prepends a record carrying a freshly
generated unique id (`[newRecord, ...state]`), `REMOVE` filters out the
matching record and is a no-op on an absent id. Fresh ids are modelled by a
monotonic counter `nextId` threaded alongside the state. -/
def reduce (nextId : Nat) (state : List Todo) : TodoAction → Nat × List Todo
  | .add text completed => (nextId + 1, ⟨nextId, text, completed⟩ :: state)
  | .remove id => (nextId, state.filter fun t => !(t.id == id))

/-- Dispatch a whole sequence of actions, starting from counter `nextId` and
collection `state`. -/
def applyActions (nextId : Nat) (state : List Todo) : List TodoAction → Nat × List Todo
  | [] => (nextId, state)
  | a :: rest =>
      applyActions (reduce nextId state a).1 (reduce nextId state a).2 rest

/-- Does some `REMOVE i` occur in the action list? -/
def removesId (acts : List TodoAction) (i : Nat) : Bool :=
  acts.any fun a => match a with
    | .remove j => i == j
    | .add _ _ => false

/-- Reference value, straight from the spec sentence: the records added by
the action sequence minus those removed afterwards, each add consuming one
fresh id from the counter, later adds listed first (prepend order). -/
def addedMinusRemoved (nextId : Nat) : List TodoAction → List Todo
  | [] => []
  | .add text completed :: rest =>
      addedMinusRemoved (nextId + 1) rest ++
        (if removesId rest nextId then [] else [⟨nextId, text, completed⟩])
  | .remove _ :: rest => addedMinusRemoved nextId rest

/-- `removesId` ignores a leading `ADD`. -/
theorem removesId_add (text : String) (completed : Bool) (rest : List TodoAction) (i : Nat) :
    removesId (.add text completed :: rest) i = removesId rest i := by
  simp [removesId, List.any_cons]

/-- `removesId` on a leading `REMOVE` matches it or recurses. -/
theorem removesId_remove (j : Nat) (rest : List TodoAction) (i : Nat) :
    removesId (.remove j :: rest) i = ((i == j) || removesId rest i) := by
  simp [removesId, List.any_cons]

/-- Running the reducer from any counter and collection yields the records
added minus those removed afterwards, in front of the surviving part of the
starting collection. -/
theorem applyActions_from (acts : List TodoAction) :
    ∀ (nextId : Nat) (state : List Todo),
      (applyActions nextId state acts).2 =
        addedMinusRemoved nextId acts ++
          state.filter fun t => !(removesId acts t.id) := by
  induction acts with
  | nil =>
    intro nextId state
    simp [applyActions, addedMinusRemoved, removesId]
  | cons a rest ih =>
    intro nextId state
    cases a with
    | add text completed =>
      simp only [applyActions, reduce]
      rw [ih]
      simp only [addedMinusRemoved]
      have hpred : ∀ t : Todo,
          (!(removesId (.add text completed :: rest) t.id)) =
            (!(removesId rest t.id)) := by
        intro t; rw [removesId_add]
      simp only [hpred, List.filter_cons]
      by_cases hc : removesId rest nextId
      · simp [hc, List.append_assoc]
      · simp [hc, List.append_assoc]
    | remove i =>
      simp only [applyActions, reduce]
      rw [ih]
      simp only [addedMinusRemoved]
      congr 1
      rw [List.filter_filter]
      apply List.filter_congr
      intro t _
      rw [removesId_remove]
      cases ht : t.id == i <;> cases hr : removesId rest t.id <;> simp [ht, hr]

/-- The reducer keeps every id below the counter and the ids of the
collection pairwise distinct. -/
theorem applyActions_ids (acts : List TodoAction) :
    ∀ (nextId : Nat) (state : List Todo),
      (∀ t ∈ state, t.id < nextId) → (state.map Todo.id).Nodup →
      ((applyActions nextId state acts).2.map Todo.id).Nodup := by
  induction acts with
  | nil =>
    intro nextId state _ h2
    exact h2
  | cons a rest ih =>
    intro nextId state h1 h2
    cases a with
    | add text completed =>
      simp only [applyActions, reduce]
      apply ih
      · intro t ht
        rcases List.mem_cons.mp ht with h | h
        · rw [h]; exact Nat.lt_succ_self nextId
        · exact Nat.lt_succ_of_lt (h1 t h)
      · simp only [List.map_cons, List.nodup_cons]
        refine ⟨fun hmem => ?_, h2⟩
        rcases List.mem_map.mp hmem with ⟨t, ht, hid⟩
        have := h1 t ht
        omega
    | remove i =>
      simp only [applyActions, reduce]
      apply ih
      · intro t ht
        exact h1 t (List.mem_of_mem_filter ht)
      · exact h2.sublist ((List.filter_sublist state).map Todo.id)

/-- Supporting result about the spec-modelled reducer variant only: starting
from the empty collection, any sequence of `ADD`/`REMOVE` actions (each
`ADD` consuming a fresh id from the monotonic counter) leaves exactly the
records added minus those removed afterwards, and no two records of the
resulting collection share an id. The Context variant named by the
added-minus-removed claim does not enjoy this property — see the failing
add-then-delete sequence below. -/
theorem reducer_sequences_correct (acts : List TodoAction) :
    (applyActions 0 [] acts).2 = addedMinusRemoved 0 acts ∧
    ((applyActions 0 [] acts).2.map Todo.id).Nodup := by
  constructor
  · rw [applyActions_from acts 0 []]
    simp
  · exact applyActions_ids acts 0 [] (by simp) (by simp)

/-- C2: evaluating the Context variant (the operations the claim names,
present in the source) at a failing sequence. Starting from the empty
collection, `addTodo` with generated id 7 adds one record; `deleteTodo(7)`
of that just-added record — which per the claim should leave exactly the
records added minus those removed, the empty collection — instead throws
`ReferenceError: todo is not defined`, producing no collection at all, while
the record survives in the unmutated input. -/
theorem add_then_delete_failing_sequence :
    addTodo 7 ⟨"buy milk", false⟩ [] = [⟨7, "buy milk", false⟩] ∧
    deleteTodo 7 (addTodo 7 ⟨"buy milk", false⟩ []) =
      .error (.referenceError "todo") := by
  constructor <;> rfl

/-- A JavaScript value as produced by the code under study: `undefined`, or
a parsed `rates` object mapping currency codes to multipliers. -/
inductive JsValue where
  | undefined
  | ratesObj (rates : List (String × Nat))
deriving Repr, DecidableEq

/-- The body of an HTTP response, as seen by `res.json()`: either it fails
to parse, or it parses to an object that may or may not carry a `rates`
field. -/
inductive JsonBody where
  | malformed
  | json (rates : Option (List (String × Nat)))
deriving Repr, DecidableEq

/-- The outcome of `fetch(...)`: the promise rejects (network error), or a
response arrives with some status code and body. `fetch` does not reject on
a non-2xx status. -/
inductive FetchResult where
  | networkError
  | response (status : Nat) (body : JsonBody)
deriving Repr, DecidableEq

/-- The promise chain of `useCurrencyInfo` before the `catch`:
`fetch(url).then((res) => res.json()).then((res) => setData(res.rates))`.
A rejected fetch or a rejected `res.json()` propagates as an error; an
object without a `rates` field stores `undefined`. The status code is never
inspected. -/
def fetchChain : FetchResult → Except JsError JsValue
  | .networkError => .error .networkError
  | .response _ .malformed => .error .parseError
  | .response _ (.json none) => .ok .undefined
  | .response _ (.json (some m)) => .ok (.ratesObj m)

/-- The `data` value `useCurrencyInfo` ends up holding for a settled
lookup: the chain's value, with the `catch` handler replacing any rejection
by the empty object `{}` (`setData({})`). Totality of this function is the
never-throws guarantee: every rejection is absorbed by the `catch`. -/
def useCurrencyInfo (r : FetchResult) : JsValue :=
  match fetchChain r with
  | .error _ => .ratesObj []
  | .ok v => v

/-- C3 counterexample to the claim as stated: a non-2xx response (status
404) whose body is valid JSON without a `rates` field is a failing
rate-lookup, yet the hook stores `undefined` — not the empty mapping — since
the code never inspects the status. -/
theorem useCurrencyInfo_counterexample :
    (404 < 200 ∨ 299 < 404) ∧
    useCurrencyInfo (.response 404 (.json none)) ≠ JsValue.ratesObj [] := by
  decide

/-- C3 amended: a network error or a malformed JSON body degrades to the
empty mapping, and no rejection ever escapes the hook (every error of the
chain is caught and replaced by `{}`); the HTTP status is ignored, so any
response with a parseable body stores that body's `rates` field — the
mapping itself when present, `undefined` when absent — regardless of
status. -/
theorem useCurrencyInfo_failure_behavior :
    useCurrencyInfo .networkError = JsValue.ratesObj [] ∧
    (∀ status : Nat, useCurrencyInfo (.response status .malformed) =
      JsValue.ratesObj []) ∧
    (∀ status : Nat, ∀ m : List (String × Nat),
      useCurrencyInfo (.response status (.json (some m))) = JsValue.ratesObj m) ∧
    (∀ status : Nat, useCurrencyInfo (.response status (.json none)) =
      JsValue.undefined) :=
  ⟨rfl, fun _ => rfl, fun _ _ => rfl, fun _ => rfl⟩

/-- React's context primitive: `createContext(defaultValue)` stores a
default, and `useContext` yields the nearest provider's value, falling back
to the default when the component is rendered outside any provider. The
optional argument models whether a provider is in scope. -/
structure ReactContext (α : Type) where
  defaultValue : α

/-- `useContext(ctx)`: the provider's value when one wraps the caller, the
context's default otherwise; it never throws. -/
def useContext {α : Type} (ctx : ReactContext α) : Option α → α
  | some v => v
  | none => ctx.defaultValue

/-- The value type of `TodoContext`: the collection plus the four mutator
functions (the defaults are `(_args) => {}`, returning `undefined`). -/
structure TodoContextValue where
  todos : List Todo
  addTodo : Payload → JsValue
  updatedTodo : Nat → Todo → JsValue
  deleteTodo : Nat → JsValue
  toggleComplete : Nat → JsValue

/-- `TodoContext` from `src/Contexts/TodoContext.js`: `createContext` with
the placeholder record `{id: 1, todo: " Todo msg", completed: false}` and
four placeholder mutators. -/
def TodoContext : ReactContext TodoContextValue :=
  { defaultValue :=
    { todos := [⟨1, " Todo msg", false⟩]
      addTodo := fun _todo => .undefined
      updatedTodo := fun _id _todo => .undefined
      deleteTodo := fun _id => .undefined
      toggleComplete := fun _id => .undefined } }

/-- `useTodo` from `src/Contexts/TodoContext.js`:
`return useContext(TodoContext)`. -/
def useTodo (pv : Option TodoContextValue) : TodoContextValue :=
  useContext TodoContext pv

/-- The value type of `ThemeContext` (themSwitcher `src/contexts/them.js`). -/
structure ThemeContextValue where
  themeMode : String
  darkTheme : Unit → JsValue
  lightTheme : Unit → JsValue

/-- `ThemeContext`: `createContext({themeMode: "light", darkTheme: () => {},
lightTheme: () => {}})`. -/
def ThemeContext : ReactContext ThemeContextValue :=
  { defaultValue :=
    { themeMode := "light"
      darkTheme := fun _ => .undefined
      lightTheme := fun _ => .undefined } }

/-- `useTheme` from `src/contexts/them.js`:
`return useContext(ThemeContext)`. -/
def useTheme (pv : Option ThemeContextValue) : ThemeContextValue :=
  useContext ThemeContext pv

/-- The user record of the miniContext demo: `{username, password}`. -/
structure User where
  username : String
  password : String
deriving Repr, DecidableEq

/-- The value observed through `UserContext`: the context is created by
`React.createContext()` with no argument, so its default is `undefined`;
inside the provider the value is the `{user, setUser}` object, whose `user`
starts as `{}` (no username yet). -/
inductive UserContextValue where
  | undefined
  | value (user : Option User)
deriving Repr, DecidableEq

/-- `UserContext` from `src/context/UserContext.js`:
`React.createContext()` — default `undefined`. -/
def UserContext : ReactContext UserContextValue :=
  { defaultValue := .undefined }

/-- How a caller detects whether it got a provider value: `undefined` is
falsy, a provider's object is truthy. -/
def UserContextValue.isProvided : UserContextValue → Bool
  | .undefined => false
  | .value _ => true

/-- C4: each consumer hook invoked outside any provider returns the
context's declared default value — for `UserContext`, created without an
argument, the `undefined` sentinel, which `isProvided` distinguishes from
every provider value. All three hooks are total functions: no exception
reaches the caller. -/
theorem hooks_outside_provider_default :
    useTodo none = TodoContext.defaultValue ∧
    useTheme none = ThemeContext.defaultValue ∧
    useContext UserContext none = UserContextValue.undefined ∧
    (useContext UserContext none).isProvided = false ∧
    (∀ u, (UserContextValue.value u).isProvided = true) :=
  ⟨rfl, rfl, rfl, rfl, fun _ => rfl⟩

/-- C10: the default `TodoContext` value seen by `useTodo` outside any
provider holds exactly the one placeholder record
`{id: 1, todo: " Todo msg", completed: false}` (so the default collection is
not empty), and all four default mutators return `undefined` (no-ops with
no state to change). -/
theorem todoContext_default_shape :
    (useTodo none).todos = [⟨1, " Todo msg", false⟩] ∧
    (useTodo none).todos.length = 1 ∧
    (∀ p, (useTodo none).addTodo p = JsValue.undefined) ∧
    (∀ id t, (useTodo none).updatedTodo id t = JsValue.undefined) ∧
    (∀ id, (useTodo none).deleteTodo id = JsValue.undefined) ∧
    (∀ id, (useTodo none).toggleComplete id = JsValue.undefined) :=
  ⟨rfl, rfl, fun _ => rfl, fun _ _ => rfl, fun _ => rfl, fun _ => rfl⟩

/-- The theme state of the themSwitcher `App.jsx`: `useState("light")`. -/
def initialThemeMode : String := "light"

/-- The two setter closures passed through the theme provider. -/
inductive ThemeSetter where
  | darkSetter
  | lightSetter
deriving Repr, DecidableEq

/-- `darkTheme = () => setThemeMode("dark")` and
`lightTheme = () => setThemeMode("light")`: each ignores the previous
mode. -/
def applySetter (mode : String) : ThemeSetter → String
  | .darkSetter => "dark"
  | .lightSetter => "light"

/-- The observable mode after a sequence of setter invocations. -/
def runSetters (mode : String) (l : List ThemeSetter) : String :=
  l.foldl applySetter mode

/-- From any declared variant, any sequence of setters ends in a declared
variant. -/
theorem runSetters_closed (l : List ThemeSetter) :
    ∀ mode, (mode = "light" ∨ mode = "dark") →
      (runSetters mode l = "light" ∨ runSetters mode l = "dark") := by
  induction l with
  | nil =>
    intro mode h
    exact h
  | cons s rest ih =>
    intro mode h
    simp only [runSetters, List.foldl_cons]
    cases s
    · exact ih _ (Or.inr rfl)
    · exact ih _ (Or.inl rfl)

/-- C9: the theme store starts at `"light"`; invoking the dark setter yields
`"dark"`; invoking the light setter afterwards returns to `"light"`; and
after any sequence of setter invocations the mode is one of the declared
variants `{light, dark}`. -/
theorem theme_store_transitions :
    initialThemeMode = "light" ∧
    runSetters initialThemeMode [.darkSetter] = "dark" ∧
    runSetters initialThemeMode [.darkSetter, .lightSetter] = "light" ∧
    (∀ l : List ThemeSetter, runSetters initialThemeMode l = "light" ∨
      runSetters initialThemeMode l = "dark") :=
  ⟨rfl, rfl, rfl, fun l => runSetters_closed l initialThemeMode (Or.inl rfl)⟩
